import Mathlib

/-!
Verification development for the OBookLLM RAG backend.

The Python sources are shallowly embedded: Python strings become `List Char`
(so slicing is `List.take`/`List.drop`), dictionaries in insertion order
become association lists, generator output becomes a list of yielded
fragments paired with an optional terminal exception, and external
collaborators (the Chroma vector store, the chat providers, `json.dumps`,
`os.getenv`) are oracle parameters.
-/

set_option autoImplicit false

namespace OBookLLM

/-- Python strings, viewed as their character sequences. -/
abbrev Str := List Char

/-- Python exceptions raised or caught by the embedded code. -/
inductive Err where
  | valueError (msg : String)
  | notImplementedError (msg : String)
  | typeError (msg : String)
  | indexError (msg : String)
  | runtime (msg : String)
deriving DecidableEq

/-- Embeds Python `str(e)` on an exception: its message. -/
def Err.str : Err → String
  | .valueError m => m
  | .notImplementedError m => m
  | .typeError m => m
  | .indexError m => m
  | .runtime m => m

/-! ### Legacy chunking (src/backend/src/rag.py, `_legacy_process_document`) -/

/-- Embeds `chunk_size = 500` from `_legacy_process_document`. -/
def chunk_size : Nat := 500

/-- Embeds `overlap = 50` from `_legacy_process_document`. -/
def chunkOverlap : Nat := 50

/-- Embeds the chunking loop of `_legacy_process_document`
(src/backend/src/rag.py lines 159-160):
`for i in range(0, len(content), chunk_size - overlap): chunks.append(content[i:i + chunk_size])`.
Each loop iteration with start index `i < len(content)` becomes one recursive
step over the remaining suffix. -/
def legacyChunks : Str → List Str
  | [] => []
  | c :: rest =>
      ((c :: rest).take chunk_size) :: legacyChunks ((c :: rest).drop (chunk_size - chunkOverlap))
termination_by l => l.length
decreasing_by simp [chunk_size, chunkOverlap]; omega

/-! ### Documents, excerpts and citation assembly
(src/backend/src/chains/rag_chain.py, `RAGChain.retrieve_context` lines 222-256) -/

/-- Embeds a LangChain `Document` as retrieved from the vector store:
`page_content` plus the `source_name` metadata entry (possibly absent). -/
structure Doc where
  source_name : Option String
  page_content : Str
deriving DecidableEq

/-- Embeds `doc.metadata.get("source_name", "Unknown")` (rag_chain.py line 230). -/
def docName (d : Doc) : String := d.source_name.getD ("Unknown")

/-- Embeds the `CitationInfo` dataclass (rag_chain.py lines 21-26). -/
structure CitationInfo where
  id : Nat
  source_name : String
  excerpts : List Str
deriving DecidableEq

/-- Embeds the excerpt truncation of rag_chain.py line 245:
`doc.page_content[:300] + "..." if len(doc.page_content) > 300 else doc.page_content`. -/
def mkExcerpt (s : Str) : Str :=
  if 300 < s.length then s.take 300 ++ ("...").data else s

/-- Embeds the context block f-string of rag_chain.py lines 249-253 and 291-295:
three lines `--- BEGIN SOURCE [{cid}] ({name}) ---`, the content, `--- END SOURCE [{cid}] ---`. -/
def contextBlock (cid : Nat) (name : String) (content : Str) : Str :=
  ("--- BEGIN SOURCE [" ++ toString cid ++ "] (" ++ name ++ ") ---\n").data
    ++ content ++ ("\n--- END SOURCE [" ++ toString cid ++ "] ---").data

/-- State of the context-assembly loop of rag_chain.py lines 224-253:
`context_parts`, `source_map` (a Python dict in insertion order),
`citation_info` (likewise) and `citation_counter`. -/
structure AState where
  context_parts : List Str
  source_map : List (String × Nat)
  citation_info : List (Nat × CitationInfo)
  citation_counter : Nat
deriving DecidableEq

/-- Assembly state at loop entry (rag_chain.py lines 224-227). -/
def initAState : AState := ⟨[], [], [], 1⟩

/-- Lookup in the embedded `source_map` dict. -/
def lookupSM (m : List (String × Nat)) (k : String) : Option Nat :=
  (m.find? (fun p => p.1 == k)).map (fun p => p.2)

/-- Embeds `citation_info[cid].excerpts.append(excerpt)` (rag_chain.py line 246)
as a functional update of the entry keyed `cid`. -/
def addExcerpt (info : List (Nat × CitationInfo)) (cid : Nat) (e : Str) :
    List (Nat × CitationInfo) :=
  info.map (fun p =>
    if p.1 = cid then (p.1, ⟨p.2.id, p.2.source_name, p.2.excerpts ++ [e]⟩) else p)

/-- Embeds one iteration of the `for doc in results` loop
(rag_chain.py lines 229-253): assign a citation ID on first sight of the
source name, append the truncated excerpt, append the context block. -/
def assembleStep (st : AState) (doc : Doc) : AState :=
  let source_name := docName doc
  let st1 :=
    if (lookupSM st.source_map source_name).isNone then
      { st with
          source_map := st.source_map ++ [(source_name, st.citation_counter)]
          citation_info :=
            st.citation_info ++ [(st.citation_counter, ⟨st.citation_counter, source_name, []⟩)]
          citation_counter := st.citation_counter + 1 }
    else st
  let cid := (lookupSM st1.source_map source_name).getD 0
  { st1 with
      citation_info := addExcerpt st1.citation_info cid (mkExcerpt doc.page_content)
      context_parts := st1.context_parts ++ [contextBlock cid source_name doc.page_content] }

/-- Embeds the whole context/citation construction of rag_chain.py lines
222-256, including the final `context = "\n\n".join(context_parts)`. -/
def assembleResults (results : List Doc) : Str × List (Nat × CitationInfo) :=
  let st := results.foldl assembleStep initAState
  (List.intercalate ("\n\n").data st.context_parts, st.citation_info)

/-- First-seen-order list of distinct source names, the specification-side
notion used to state citation-ID density (spec section 8, Citation ID density). -/
def firstSeenAcc (acc : List String) (l : List String) : List String :=
  l.foldl (fun a n => if n ∈ a then a else a ++ [n]) acc

/-- Distinct values of a list in the order of their first occurrence. -/
def firstSeen (l : List String) : List String := firstSeenAcc [] l

/-! ### Retrieval engine (rag_chain.py, `RAGChain.retrieve_context` lines 158-221) -/

/-- Embeds the ChromaDB `where` filters built in rag_chain.py lines 179-203:
either `{"notebook_id": nb}`, or `$and` of notebook and one source name,
or `$and` of notebook and a `$in` list of source names. -/
inductive Fltr where
  | notebook (nb : String)
  | nbAndSource (nb : String) (src : String)
  | nbAndSourceIn (nb : String) (srcs : List String)
deriving DecidableEq

/-- One invocation of `vectorstore.similarity_search(query, k, filter)`. -/
structure SearchCall where
  query : Str
  k : Nat
  srchFilter : Fltr
deriving DecidableEq

/-- The vector store oracle: the outcome of a similarity search, which may
raise (`Except.error`). -/
def VectorSearch : Type := SearchCall → Except Err (List Doc)

/-- Embeds `filter_dict` (rag_chain.py lines 179-187): the notebook filter,
replaced by the `$in` conjunction when `selected_sources` is truthy. -/
def globalFilter (nb : String) (sel : List String) : Fltr :=
  if sel ≠ [] then .nbAndSourceIn nb sel else .notebook nb

/-- Embeds the balanced-retrieval loop (rag_chain.py lines 193-212):
one per-source similarity search each with the same `k`, results
concatenated; a failing sub-query is swallowed (lines 211-212). -/
def balancedResults (search : VectorSearch) (nb : String) (q : Str)
    (sel : List String) (k : Nat) : List Doc :=
  sel.foldl (fun acc s =>
    match search ⟨q, k, .nbAndSource nb s⟩ with
    | .ok ds => acc ++ ds
    | .error _ => acc) []

/-- Embeds `RAGChain.retrieve_context` (rag_chain.py lines 158-256).
The branch condition embeds `if selected_sources and len(selected_sources) <= 5`
(`None` and `[]` are both falsy, hence modelled as `[]`); `per_source_k`
embeds `max(3, int(n_results / len(selected_sources)) + 1)` with floor
division; the global branch propagates a search exception. -/
def retrieve_context (search : VectorSearch) (notebook_id : String) (q : Str)
    (selected_sources : List String) (n_results : Nat) :
    Except Err (Str × List (Nat × CitationInfo)) :=
  if selected_sources ≠ [] ∧ selected_sources.length ≤ 5 then
    let per_source_k := max 3 (n_results / selected_sources.length + 1)
    .ok (assembleResults (balancedResults search notebook_id q selected_sources per_source_k))
  else
    match search ⟨q, n_results, globalFilter notebook_id selected_sources⟩ with
    | .ok results => .ok (assembleResults results)
    | .error e => .error e

/-- The list of documents `results` over which the citation loop of
`retrieve_context` runs, per retrieval mode (erroring searches contribute
nothing; in global mode an error instead aborts `retrieve_context`). -/
def retrievedDocs (search : VectorSearch) (nb : String) (q : Str)
    (sel : List String) (n : Nat) : List Doc :=
  if sel ≠ [] ∧ sel.length ≤ 5 then
    balancedResults search nb q sel (max 3 (n / sel.length + 1))
  else
    match search ⟨q, n, globalFilter nb sel⟩ with
    | .ok ds => ds
    | .error _ => []

/-! ### Streaming response orchestrator (rag_chain.py, `RAGChain.stream_response`
lines 258-337, and rag.py `stream_chat_response` lines 288-310) -/

/-- A chat message dict `{"role": ..., "content": ...}`. -/
structure Message where
  role : String
  content : Str
deriving DecidableEq

/-- An element of `full_source_content`: a dict read via
`src.get('content', '')` and `src.get('name', 'Unknown')` (lines 288-289). -/
structure SrcEntry where
  name : Option String
  content : Option Str
deriving DecidableEq

/-- Embeds `src.get('name', 'Unknown')`. -/
def srcName (s : SrcEntry) : String := s.name.getD ("Unknown")

/-- Embeds `src.get('content', '')`. -/
def srcContent (s : SrcEntry) : Str := s.content.getD []

/-- The full-document excerpt sentinel of rag_chain.py line 301. -/
def fullDocExcerpt : Str := ("(Full document context used)").data

/-- Embeds the `for i, src in enumerate(full_source_content)` loop of
rag_chain.py lines 285-302, carrying the running index `i` (`cid = i + 1`). -/
def fullContextParts : Nat → List SrcEntry → List Str × List (Nat × CitationInfo)
  | _, [] => ([], [])
  | i, src :: rest =>
      let cid := i + 1
      let (parts, info) := fullContextParts (i + 1) rest
      (contextBlock cid (srcName src) (srcContent src) :: parts,
       (cid, ⟨cid, srcName src, [fullDocExcerpt]⟩) :: info)

/-- Embeds the Full Context Mode construction of rag_chain.py lines 282-303,
including `context = "\n\n".join(context_parts)`. -/
def buildFullContext (full : List SrcEntry) : Str × List (Nat × CitationInfo) :=
  let (parts, info) := fullContextParts 0 full
  (List.intercalate ("\n\n").data parts, info)

/-- The context/citation pair built by `stream_response` (rag_chain.py lines
280-311): full-context mode when `full_source_content` is truthy, otherwise
retrieval with `n_results=10`. -/
def builtContext (search : VectorSearch) (nb : String) (user_message : Str)
    (sel : List String) (full : List SrcEntry) :
    Except Err (Str × List (Nat × CitationInfo)) :=
  if full ≠ [] then .ok (buildFullContext full)
  else retrieve_context search nb user_message sel 10

/-- The text of `SYSTEM_PROMPT` before the `{context}` placeholder
(rag_chain.py lines 35-52). -/
def promptPrefix : String :=
  "You are a helpful AI assistant. Answer the user's question using ONLY the provided context.\n\nSTRICT CITATION RULES:\n- The context below contains data from sources marked with IDs like [1], [2].\n- You must cite every statement using the corresponding [ID].\n- Look for `--- BEGIN SOURCE [ID] ---`. Content from that block MUST be cited as [ID].\n- NEVER write the source name or filename in your text.\n- INCORRECT: \"According to video.mp3 [1], vectors are arrows.\"\n- CORRECT: \"Vectors are defined as arrows in space [1].\"\n\nFORMATTING RULES:\n- Use Markdown formatting.\n- Use **bold** for key concepts.\n- Use bullet points for lists.\n- Keep output clean and professional.\n\nContext with Citation IDs:\n"

/-- The text of `SYSTEM_PROMPT` after the `{context}` placeholder
(rag_chain.py line 54). -/
def promptSuffix : String :=
  "\n\nRemember: [1], [2] only. No filenames."

/-- Embeds `self.SYSTEM_PROMPT.format(context=context)` (rag_chain.py line 314). -/
def SYSTEM_PROMPT (context : Str) : Str :=
  promptPrefix.data ++ context ++ promptSuffix.data

/-- The citation sentinel line yielded at rag_chain.py line 336. -/
def citationSentinel : Str := ("\n\n---CITATIONS---\n").data

/-- Embeds the `citation_data` dict comprehension of rag_chain.py lines
329-335: citation-id-as-string mapped to the pair of source name and
excerpt list. -/
def citationPayload (info : List (Nat × CitationInfo)) :
    List (String × String × List Str) :=
  info.map (fun p => (toString p.1, p.2.source_name, p.2.excerpts))

/-- The `json.dumps` oracle: serialises the citation payload. -/
def JsonDumps : Type := List (String × String × List Str) → Str

/-- The chat provider oracle, i.e. `chat_provider.stream_chat(augmented_messages)`
as an async generator: the fragments it yields, and an optional exception
terminating it mid-stream. -/
def ChatStream : Type := List Message → List Str × Option Err

/-- Embeds `RAGChain.stream_response` (rag_chain.py lines 258-337) as the
list of yielded fragments plus the optional exception escaping the
generator. `messages[-1]` raises IndexError on an empty history; a retrieval
exception escapes before any yield; a chat exception escapes after the chat
fragments already yielded; otherwise the citation footer is yielded when
`citation_info` is truthy. -/
def stream_response (search : VectorSearch) (dumps : JsonDumps) (chat : ChatStream)
    (notebook_id : String) (messages : List Message)
    (selected_sources : List String) (full_source_content : List SrcEntry) :
    List Str × Option Err :=
  match messages.getLast? with
  | none => ([], some (Err.indexError ("list index out of range")))
  | some last =>
    match builtContext search notebook_id last.content selected_sources full_source_content with
    | .error e => ([], some e)
    | .ok (context, citation_info) =>
      match chat (Message.mk ("system") (SYSTEM_PROMPT context) :: messages) with
      | (frags, some e) => (frags, some e)
      | (frags, none) =>
        if citation_info ≠ [] then
          (frags ++ [citationSentinel, dumps (citationPayload citation_info)], none)
        else (frags, none)

/-- Embeds the error fragment of rag.py line 310:
`f"Error generating response: {str(e)}"`. -/
def errorResponseText (e : Err) : Str :=
  ("Error generating response: " ++ Err.str e).data

/-- Embeds `stream_chat_response` (rag.py lines 288-310): forwards the
fragments of `RAGChain.stream_response` and converts any exception into a
final visible error fragment. -/
def stream_chat_response (search : VectorSearch) (dumps : JsonDumps) (chat : ChatStream)
    (notebook_id : String) (messages : List Message)
    (selected_sources : List String) (full_source_content : List SrcEntry) : List Str :=
  match stream_response search dumps chat notebook_id messages
      selected_sources full_source_content with
  | (frags, none) => frags
  | (frags, some e) => frags ++ [errorResponseText e]

/-! ### Provider capability model and adapters
(src/backend/src/providers/base.py, ollama.py, gemini.py, anthropic.py, openai.py) -/

/-- Embeds the `ProviderCapabilities` dataclass (base.py lines 13-23). -/
structure ProviderCapabilities where
  supports_chat : Bool := true
  supports_streaming : Bool := true
  supports_embeddings : Bool := false
  supports_vision : Bool := false
  supports_function_calling : Bool := false
  max_context_length : Nat := 4096
  available_chat_models : List String := []
  available_embedding_models : List String := []
deriving DecidableEq

/-- Embeds `OllamaProvider.capabilities` (ollama.py lines 35-45). -/
def ollamaCapabilities : ProviderCapabilities :=
  ⟨true, true, true, true, false, 8192, [], []⟩

/-- Embeds `GeminiProvider.capabilities` (gemini.py lines 66-84). -/
def geminiCapabilities : ProviderCapabilities :=
  ⟨true, true, true, true, true, 1048576,
   ["gemini-2.5-pro", "gemini-3-flash-preview", "gemini-3-pro-preview"],
   ["gemini-embedding-001"]⟩

/-- Embeds `AnthropicProvider.capabilities` (anthropic.py lines 29-51):
in particular `supports_embeddings=False`. -/
def anthropicCapabilities : ProviderCapabilities :=
  ⟨true, true, false, true, true, 200000,
   ["claude-sonnet-4-5-20250929", "claude-haiku-4-5-20251001",
    "claude-3-5-sonnet-latest", "claude-3-5-haiku-latest",
    "claude-3-opus-latest", "claude-3-sonnet-20240229", "claude-3-haiku-20240307"],
   []⟩

/-- Embeds `OpenAIProvider.capabilities` (openai.py lines 34-66). -/
def openaiCapabilities : ProviderCapabilities :=
  ⟨true, true, true, true, true, 128000,
   ["gpt-5", "gpt-5-nano", "gpt-4.1", "gpt-4.1-mini", "gpt-4o", "gpt-4o-mini",
    "gpt-4-turbo", "gpt-4", "gpt-3.5-turbo", "o1", "o1-mini"],
   ["text-embedding-3-small", "text-embedding-3-large", "text-embedding-ada-002"]⟩

/-- The provider names registered in `ProviderRegistry.PROVIDERS`
(registry.py lines 22-27), in declaration order. -/
def PROVIDERS : List String := ["ollama", "gemini", "anthropic", "openai"]

/-- Capabilities of the provider class registered under a name; the
capabilities of each adapter class are static (each `capabilities` property
builds a fixed value). Names outside `PROVIDERS` never reach a capability
check and get the dataclass defaults. -/
def capabilitiesOf (name : String) : ProviderCapabilities :=
  if name = "ollama" then ollamaCapabilities
  else if name = "gemini" then geminiCapabilities
  else if name = "anthropic" then anthropicCapabilities
  else if name = "openai" then openaiCapabilities
  else {}

/-- The `os.getenv` oracle. -/
def Env : Type := String → Option String

/-- Mutable adapter state set by `BaseProvider.__init__` and the subclass
constructors: `api_key`, `base_url`, `_chat_model`, `_embedding_model`. -/
structure ProviderInstance where
  api_key : Option String
  base_url : Option String
  chat_model : Option String
  embedding_model : Option String
deriving DecidableEq

/-- Embeds Python truthiness of an `Optional[str]`: `None` and `""` are falsy. -/
def truthyS : Option String → Bool
  | none => false
  | some s => !(s == "")

/-- Embeds `a or b` on Python optional strings. -/
def orElseS (a : Option String) (b : Option String) : Option String :=
  if truthyS a then a else b

/-- Embeds `self.PROVIDERS[name]()`: each subclass `__init__` called without
arguments (ollama.py line 24-28, gemini.py lines 47-51, anthropic.py lines
21-23, openai.py lines 22-28), reading API keys and hosts from `os.getenv`. -/
def newInstance (env : Env) (name : String) : ProviderInstance :=
  if name = "ollama" then
    ⟨none, some ((env ("OLLAMA_HOST")).getD ("http://localhost:11434")),
     some ("llama3"), some ("nomic-embed-text")⟩
  else if name = "gemini" then
    ⟨env ("GOOGLE_API_KEY"), none, some ("gemini-1.5-flash"), some ("gemini-embedding-001")⟩
  else if name = "anthropic" then
    ⟨env ("ANTHROPIC_API_KEY"), none, some ("claude-sonnet-4-5-20250929"), none⟩
  else
    ⟨orElseS none (env ("OPENAI_API_KEY")), env ("OPENAI_BASE_URL"),
     some ("gpt-4.1-mini"), some ("text-embedding-3-small")⟩

/-- Embeds `self.PROVIDERS[provider_name](api_key=api_key)` (registry.py line
137). `OllamaProvider.__init__` takes no `api_key` keyword, so this call
raises `TypeError` for `"ollama"`; the other three constructors compute
`api_key or os.getenv(...)`. -/
def preCreate (env : Env) (name : String) (api_key : String) :
    Except Err ProviderInstance :=
  if name = "ollama" then
    .error (.typeError ("__init__() got an unexpected keyword argument 'api_key'"))
  else
    .ok { newInstance env name with
            api_key := orElseS (some api_key) ((newInstance env name).api_key) }

/-- Embeds `ProviderRegistry.__init__`'s mutable state (registry.py lines
29-34): the `_instances` cache (a dict in insertion order) and the four
selection fields. -/
structure Registry where
  instances : List (String × ProviderInstance)
  chat_provider_name : String
  chat_model : Option String
  embedding_provider_name : String
  embedding_model : Option String
deriving DecidableEq

/-- A freshly constructed `ProviderRegistry`. -/
def initRegistry : Registry := ⟨[], "ollama", none, "ollama", none⟩

/-- Lookup in the `_instances` dict. -/
def lookupInst (m : List (String × ProviderInstance)) (k : String) :
    Option ProviderInstance :=
  (m.find? (fun p => p.1 == k)).map (fun p => p.2)

/-- In-place mutation of one cached adapter instance. -/
def updateInst (m : List (String × ProviderInstance)) (k : String)
    (f : ProviderInstance → ProviderInstance) : List (String × ProviderInstance) :=
  m.map (fun p => if p.1 = k then (p.1, f p.2) else p)

/-- Embeds `ProviderRegistry.get_provider` (registry.py lines 36-47):
raise on an unknown name, otherwise return the cached instance, creating
and caching it on first use. -/
def Registry.get_provider (env : Env) (r : Registry) (name : String) :
    Registry × Except Err ProviderInstance :=
  if name ∈ PROVIDERS then
    match lookupInst r.instances name with
    | some inst => (r, .ok inst)
    | none =>
        let inst := newInstance env name
        ({ r with instances := r.instances ++ [(name, inst)] }, .ok inst)
  else
    (r, .error (.valueError ("Unknown provider: " ++ name)))

/-- Embeds `ProviderRegistry.set_chat_provider` (registry.py lines 49-59). -/
def Registry.set_chat_provider (env : Env) (r : Registry) (provider_name : String)
    (model_name : Option String) : Registry × Except Err Unit :=
  if provider_name ∈ PROVIDERS then
    let r := { r with chat_provider_name := provider_name, chat_model := model_name }
    if truthyS model_name then
      match r.get_provider env provider_name with
      | (r, .ok _) =>
          ({ r with instances := (updateInst r.instances provider_name
              (fun i => { i with chat_model := model_name })) }, .ok ())
      | (r, .error e) => (r, .error e)
    else (r, .ok ())
  else (r, .error (.valueError ("Unknown provider: " ++ provider_name)))

/-- Embeds `ProviderRegistry.set_embedding_provider` (registry.py lines
61-75): raise on an unknown name, instantiate the provider, raise a
`ValueError` when its capabilities lack embedding support, and only then
mutate the selection fields. -/
def Registry.set_embedding_provider (env : Env) (r : Registry) (provider_name : String)
    (model_name : Option String) : Registry × Except Err Unit :=
  if provider_name ∈ PROVIDERS then
    match r.get_provider env provider_name with
    | (r, .ok _) =>
        if (capabilitiesOf provider_name).supports_embeddings then
          let r := { r with embedding_provider_name := provider_name,
                            embedding_model := model_name }
          if truthyS model_name then
            ({ r with instances := (updateInst r.instances provider_name
                (fun i => { i with embedding_model := model_name })) }, .ok ())
          else (r, .ok ())
        else
          (r, .error (.valueError ("Provider " ++ provider_name
                ++ " does not support embeddings")))
    | (r, .error e) => (r, .error e)
  else (r, .error (.valueError ("Unknown provider: " ++ provider_name)))

/-- The settings dict consumed by `configure_from_settings`
(registry.py lines 113-151), absent keys modelled as `none`/`[]`. -/
structure Settings where
  chat_provider : Option String
  chat_model : Option String
  embedding_provider : Option String
  embedding_model : Option String
  api_keys : List (String × String)
deriving DecidableEq

/-- Embeds the API-key loop of `configure_from_settings` (registry.py lines
131-137): assign `api_key` on an existing instance, or pre-create one with
the key; a constructor `TypeError` propagates. -/
def applyApiKeys (env : Env) : Registry → List (String × String) → Except Err Registry
  | r, [] => .ok r
  | r, pk :: rest =>
      if (lookupInst r.instances pk.1).isSome then
        applyApiKeys env { r with instances := (updateInst r.instances pk.1
            (fun i => { i with api_key := some pk.2 })) } rest
      else if pk.1 ∈ PROVIDERS then
        match preCreate env pk.1 pk.2 with
        | .ok inst =>
            applyApiKeys env { r with instances := r.instances ++ [(pk.1, inst)] } rest
        | .error e => .error e
      else applyApiKeys env r rest

/-- Embeds `ProviderRegistry.configure_from_settings` (registry.py lines
113-151): apply API keys, set the chat provider (errors propagate), then
set the embedding provider, falling back to `"ollama"` with the same
requested embedding model when that raises a `ValueError`. -/
def Registry.configure_from_settings (env : Env) (r : Registry) (s : Settings) :
    Registry × Except Err Unit :=
  match applyApiKeys env r s.api_keys with
  | .error e => (r, .error e)
  | .ok r =>
    match r.set_chat_provider env (s.chat_provider.getD ("ollama")) s.chat_model with
    | (r, .error e) => (r, .error e)
    | (r, .ok ()) =>
      match r.set_embedding_provider env (s.embedding_provider.getD ("ollama"))
          s.embedding_model with
      | (r, .ok ()) => (r, .ok ())
      | (r, .error _) => r.set_embedding_provider env ("ollama") s.embedding_model

/-- A LangChain embeddings object, abstracted to its provenance. -/
structure Embeddings where
  provider : String
  model : Option String
deriving DecidableEq

/-- Embeds `AnthropicProvider.get_embeddings` (anthropic.py lines 61-66):
unconditionally raises `NotImplementedError`. -/
def anthropic_get_embeddings (_model_name : Option String) : Except Err Embeddings :=
  .error (.notImplementedError ("Anthropic does not provide embedding models. "
    ++ "Use a different provider (Ollama, OpenAI, or Gemini) for embeddings."))

/-- Embeds `BaseProvider.embed_text` (base.py lines 101-113) specialised to
the Anthropic adapter: obtain the embeddings object via `get_embeddings`,
then call the external `aembed_query` on it. -/
def anthropic_embed_text {V : Type} (aembed : Embeddings → Str → V)
    (text : Str) (model_name : Option String) : Except Err V :=
  match anthropic_get_embeddings model_name with
  | .error e => .error e
  | .ok emb => .ok (aembed emb text)


/-! ### Concrete fixtures used for closed evaluations -/

/-- A concrete retrieved chunk of source `a.txt`. -/
def wDocA : Doc := ⟨some ("a.txt"), ['x']⟩

/-- A concrete retrieved chunk of source `b.txt`. -/
def wDocB : Doc := ⟨some ("b.txt"), ['y', 'z']⟩

/-- A concrete result list: three chunks over two distinct sources, the
second source first seen in the middle. -/
def wDocs : List Doc := [wDocA, wDocB, wDocA]

/-- A vector store always answering `wDocs`. -/
def wSearch : VectorSearch := fun _ => .ok wDocs

/-- Two selected sources. -/
def wSel2 : List String := ["a.txt", "b.txt"]

/-- Exactly five selected sources (balanced-mode boundary). -/
def wSel5 : List String := ["s1", "s2", "s3", "s4", "s5"]

/-- Six selected sources (global-mode boundary). -/
def wSel6 : List String := ["s1", "s2", "s3", "s4", "s5", "s6"]

/-- A chat provider streaming one fragment and finishing cleanly. -/
def wChat : ChatStream := fun _ => ([("hi").data], none)

/-- A chat provider failing mid-stream after one fragment. -/
def wChatErr : ChatStream := fun _ => ([("half an answer").data], some (.runtime ("boom")))

/-- A trivial serialiser oracle. -/
def wDumps : JsonDumps := fun _ => ("{}").data

/-- A one-message conversation. -/
def wMsgs : List Message := [⟨("user"), ['q']⟩]

/-- The spec's full-context example: sources A = "foo" and B = "bar". -/
def wFull2 : List SrcEntry := [⟨some ("A"), some (("foo").data)⟩, ⟨some ("B"), some (("bar").data)⟩]

/-- An environment with no variables set. -/
def wEnv : Env := fun _ => none

/-- Settings naming an unknown chat provider together with the
embeddings-incapable `anthropic` embedding provider. -/
def wSettingsBad : Settings := ⟨some ("nope"), none, some ("anthropic"), none, []⟩

/-- Well-formed settings requesting `anthropic` embeddings. -/
def wSettingsAnth : Settings :=
  ⟨some ("ollama"), none, some ("anthropic"), some ("nomic-embed-text"), []⟩

/-! ## Lemmas and claim theorems -/

theorem stride_eq : chunk_size - chunkOverlap = 450 := rfl

theorem chunk_size_eq : chunk_size = 500 := rfl

theorem legacyChunks_cons (c : Char) (rest : Str) :
    legacyChunks (c :: rest) =
      ((c :: rest).take 500) :: legacyChunks ((c :: rest).drop 450) := by
  rw [legacyChunks, stride_eq, chunk_size_eq]

/-- Arithmetic step for the chunk count: peeling one stride off the length. -/
theorem div450_step (L : Nat) (h : 1 ≤ L) :
    (L - 450 + 449) / 450 + 1 = (L + 449) / 450 := by
  rcases Nat.lt_or_ge L 451 with h1 | h1
  · have hz : L - 450 + 449 = 449 := by omega
    have hone : (L + 449) / 450 = 1 := by
      apply Nat.div_eq_of_lt_le <;> omega
    calc (L - 450 + 449) / 450 + 1 = 449 / 450 + 1 := by rw [hz]
    _ = 1 := by norm_num
    _ = (L + 449) / 450 := hone.symm
  · have hsum : L + 449 = (L - 450 + 449) + 450 := by omega
    rw [hsum, Nat.add_div_right _ (by norm_num)]

/-- The chunk loop emits one chunk per multiple of the stride 450 below the
content length: `ceil(len / 450)` chunks in total. -/
theorem legacyChunks_length (l : Str) :
    (legacyChunks l).length = (l.length + 449) / 450 := by
  induction l using legacyChunks.induct with
  | case1 => simp [legacyChunks]
  | case2 c rest ih =>
      simp only [stride_eq] at ih
      rw [legacyChunks_cons]
      simp only [List.length_cons, List.length_drop] at ih ⊢
      rw [ih]
      exact div450_step (rest.length + 1) (by omega)

theorem legacyChunks_getElem (l : Str) (i : Nat)
    (hi : i < (legacyChunks l).length) :
    (legacyChunks l)[i]? = some ((l.drop (450 * i)).take 500) := by
  induction l using legacyChunks.induct generalizing i with
  | case1 => simp [legacyChunks] at hi
  | case2 c rest ih =>
      simp only [stride_eq] at ih
      rw [legacyChunks_cons] at hi ⊢
      match i with
      | 0 => simp
      | j + 1 =>
          have hj : j < (legacyChunks ((c :: rest).drop 450)).length := by
            simp only [List.length_cons] at hi
            omega
          have hmul : 450 * (j + 1) = 450 + 450 * j := by ring
          rw [List.getElem?_cons_succ, ih j hj, List.drop_drop, hmul]

theorem legacyChunks_chunk_le (l : Str) :
    ∀ c ∈ legacyChunks l, c.length ≤ 500 := by
  induction l using legacyChunks.induct with
  | case1 => simp [legacyChunks]
  | case2 c rest ih =>
      simp only [stride_eq] at ih
      rw [legacyChunks_cons]
      intro ch hch
      rcases List.mem_cons.mp hch with h | h
      · subst h
        simp [List.length_take]
      · exact ih ch h

/-- Dropping each chunk's first 50 characters and concatenating yields the
content from position 50 on: the chunks leave no gap. -/
theorem legacyChunks_flatten_drop (l : Str) :
    ((legacyChunks l).map (fun c => c.drop 50)).flatten = l.drop 50 := by
  induction l using legacyChunks.induct with
  | case1 => simp [legacyChunks]
  | case2 c rest ih =>
      simp only [stride_eq] at ih
      rw [legacyChunks_cons]
      simp only [List.map_cons, List.flatten_cons, ih]
      rw [List.drop_take, List.drop_drop]
      norm_num
      have h3 : List.drop 450 (List.drop 49 rest) = List.drop 499 rest := by
        rw [List.drop_drop]
      rw [← h3, List.take_append_drop]

/-- C6 counterexample: on a content of 901 characters (longer than one
window), the chunking loop produces 3 chunks, while the claimed count
`ceil((len - 50) / 450)` (encoded as `(len - 50 + 449) / 450`) is 2 — the
loop emits a final chunk lying entirely inside the previous chunk's overlap. -/
theorem chunk_count_formula_counterexample :
    500 < (List.replicate 901 'a').length ∧
    ¬ ((legacyChunks (List.replicate 901 'a')).length
        = ((List.replicate 901 'a').length - 50 + 449) / 450) := by
  constructor
  · rw [List.length_replicate]
    norm_num
  · rw [legacyChunks_length]
    rw [List.length_replicate]
    norm_num

/-- C6 (amended): for content longer than one window, the chunking path with
window 500 and stride 450 produces exactly `ceil(len / 450)` chunks (not
`ceil((len - 50) / 450)`; the two differ exactly when `len mod 450` lies in
`1..50`, where one extra fully-redundant chunk is emitted); no chunk exceeds
500 characters; chunk `i` is the window of the input starting at `450*i`;
each consecutive pair shares the region starting 450 characters into the
earlier chunk — exactly 50 shared characters whenever the earlier chunk is a
full 500-character window (the final pair may share fewer when the earlier
chunk is truncated); and the chunks' covered ranges reconstruct the full
input with no gaps. -/
theorem legacy_chunking_amended (l : Str) (h : 500 < l.length) :
    (legacyChunks l).length = (l.length + 449) / 450 ∧
    (∀ c ∈ legacyChunks l, c.length ≤ 500) ∧
    (∀ i, i < (legacyChunks l).length →
        (legacyChunks l)[i]? = some ((l.drop (450 * i)).take 500)) ∧
    (∀ i ci cj, (legacyChunks l)[i]? = some ci → (legacyChunks l)[i + 1]? = some cj →
        ci.drop 450 = cj.take 50 ∧ (ci.length = 500 → (ci.drop 450).length = 50)) ∧
    l.take 500 ++ (((legacyChunks l).drop 1).map (fun c => c.drop 50)).flatten = l := by
  refine ⟨legacyChunks_length l, legacyChunks_chunk_le l, fun i hi => legacyChunks_getElem l i hi, ?_, ?_⟩
  · intro i ci cj hci hcj
    have hi : i < (legacyChunks l).length := by
      by_contra hcon
      rw [List.getElem?_eq_none (by omega)] at hci
      exact Option.noConfusion hci
    have hj : i + 1 < (legacyChunks l).length := by
      by_contra hcon
      rw [List.getElem?_eq_none (by omega)] at hcj
      exact Option.noConfusion hcj
    have eci : ci = (l.drop (450 * i)).take 500 := by
      have := legacyChunks_getElem l i hi
      rw [hci] at this
      exact Option.some.inj this
    have ecj : cj = (l.drop (450 * (i + 1))).take 500 := by
      have := legacyChunks_getElem l (i + 1) hj
      rw [hcj] at this
      exact Option.some.inj this
    have hmul : 450 * (i + 1) = 450 * i + 450 := by ring
    constructor
    · rw [eci, ecj, List.drop_take, List.drop_drop, hmul, List.take_take]
      norm_num
    · intro hlen
      rw [List.length_drop, hlen]
  · match l, h with
    | c :: rest, _ =>
        rw [legacyChunks_cons]
        simp only [List.drop_one, List.tail_cons]
        rw [legacyChunks_flatten_drop]
        have h3 : List.drop 50 (List.drop 450 (c :: rest)) = List.drop 500 (c :: rest) := by
          rw [List.drop_drop]
        rw [h3, List.take_append_drop]

/-- C6 amended witness: a 501-character content has 2 chunks. -/
theorem legacy_chunking_amended_witness :
    500 < (List.replicate 501 'a').length ∧
    (legacyChunks (List.replicate 501 'a')).length
      = ((List.replicate 501 'a').length + 449) / 450 :=
  ⟨by rw [List.length_replicate]; norm_num,
   (legacy_chunking_amended (List.replicate 501 'a') (by rw [List.length_replicate]; norm_num)).1⟩


/-! ### Citation assembly lemmas -/

theorem lookupSM_cons (p : String × Nat) (m : List (String × Nat)) (n : String) :
    lookupSM (p :: m) n = if p.1 = n then some p.2 else lookupSM m n := by
  simp only [lookupSM, List.find?_cons]
  by_cases h : p.1 = n
  · simp [h]
  · have hb : (p.1 == n) = false := by simp [h]
    simp [h, hb]

theorem lookupSM_append (m₁ m₂ : List (String × Nat)) (n : String) :
    lookupSM (m₁ ++ m₂) n = (lookupSM m₁ n).or (lookupSM m₂ n) := by
  simp only [lookupSM, List.find?_append]
  cases h : List.find? (fun p => p.1 == n) m₁ <;> simp [h]

theorem lookupSM_zip_not_mem (seen : List String) (n : String) :
    ∀ s : Nat, n ∉ seen → lookupSM (seen.zip (List.range' s seen.length)) n = none := by
  induction seen with
  | nil => intro s _; rfl
  | cons a tl ih =>
      intro s h
      simp only [List.mem_cons, not_or] at h
      rw [List.length_cons, List.range'_succ, List.zip_cons_cons, lookupSM_cons]
      rw [if_neg (fun he => h.1 he.symm)]
      exact ih (s + 1) h.2

theorem lookupSM_zip_mem (seen : List String) (n : String) :
    ∀ s : Nat, n ∈ seen →
      ∃ j, seen[j]? = some n ∧
        lookupSM (seen.zip (List.range' s seen.length)) n = some (s + j) := by
  induction seen with
  | nil => intro s h; exact absurd h (List.not_mem_nil n)
  | cons a tl ih =>
      intro s h
      rw [List.length_cons, List.range'_succ, List.zip_cons_cons, lookupSM_cons]
      by_cases ha : a = n
      · refine ⟨0, ?_, ?_⟩
        · simp [ha]
        · rw [if_pos ha]
          simp
      · have htl : n ∈ tl := by
          rcases List.mem_cons.mp h with h1 | h1
          · exact absurd h1.symm ha
          · exact h1
        obtain ⟨j, hj1, hj2⟩ := ih (s + 1) htl
        refine ⟨j + 1, ?_, ?_⟩
        · simpa using hj1
        · rw [if_neg ha, hj2]
          congr 1
          omega

theorem mem_zip_getElem {α β : Type} (x : α) (y : β) :
    ∀ (a : List α) (b : List β), (x, y) ∈ a.zip b →
      ∃ j : Nat, a[j]? = some x ∧ b[j]? = some y := by
  intro a
  induction a with
  | nil => intro b h; simp at h
  | cons a0 atl ih =>
      intro b h
      cases b with
      | nil => simp at h
      | cons b0 btl =>
          rw [List.zip_cons_cons] at h
          rcases List.mem_cons.mp h with h1 | h1
          · injection h1 with hx hy
            exact ⟨0, by simp [hx], by simp [hy]⟩
          · obtain ⟨j, hj1, hj2⟩ := ih btl h1
            exact ⟨j + 1, by simpa using hj1, by simpa using hj2⟩

theorem addExcerpt_map_keys (info : List (Nat × CitationInfo)) (cid : Nat) (e : Str) :
    (addExcerpt info cid e).map (fun p => (p.1, p.2.source_name))
      = info.map (fun p => (p.1, p.2.source_name)) := by
  unfold addExcerpt
  rw [List.map_map]
  apply List.map_congr_left
  intro p _
  by_cases h : p.1 = cid <;> simp [h]

theorem mem_addExcerpt (info : List (Nat × CitationInfo)) (cid : Nat) (e : Str)
    (p' : Nat × CitationInfo) (h : p' ∈ addExcerpt info cid e) :
    ∃ p ∈ info, p'.1 = p.1 ∧ p'.2.id = p.2.id ∧ p'.2.source_name = p.2.source_name ∧
      (p'.2.excerpts = p.2.excerpts ∨ (p.1 = cid ∧ p'.2.excerpts = p.2.excerpts ++ [e])) := by
  unfold addExcerpt at h
  obtain ⟨p, hp, hpe⟩ := List.mem_map.mp h
  by_cases hc : p.1 = cid
  · rw [if_pos hc] at hpe
    subst hpe
    exact ⟨p, hp, rfl, rfl, rfl, Or.inr ⟨hc, rfl⟩⟩
  · rw [if_neg hc] at hpe
    subst hpe
    exact ⟨p, hp, rfl, rfl, rfl, Or.inl rfl⟩

theorem assembleStep_found (st : AState) (doc : Doc) (c : Nat)
    (h : lookupSM st.source_map (docName doc) = some c) :
    assembleStep st doc =
      { st with
          citation_info := (addExcerpt st.citation_info c (mkExcerpt doc.page_content))
          context_parts := (st.context_parts
            ++ [contextBlock c (docName doc) doc.page_content]) } := by
  simp [assembleStep, h]

theorem assembleStep_new (st : AState) (doc : Doc)
    (h : lookupSM st.source_map (docName doc) = none) :
    assembleStep st doc =
      ⟨st.context_parts
          ++ [contextBlock st.citation_counter (docName doc) doc.page_content],
        st.source_map ++ [(docName doc, st.citation_counter)],
        addExcerpt (st.citation_info
            ++ [(st.citation_counter, ⟨st.citation_counter, docName doc, []⟩)])
          st.citation_counter (mkExcerpt doc.page_content),
        st.citation_counter + 1⟩ := by
  simp [assembleStep, h, lookupSM_append, lookupSM_cons]

theorem firstSeenAcc_cons (seen : List String) (n : String) (ns : List String) :
    firstSeenAcc seen (n :: ns)
      = firstSeenAcc (if n ∈ seen then seen else seen ++ [n]) ns := by
  simp [firstSeenAcc]

/-- Invariant of the citation-assembly loop: after processing any list of
documents starting from a state that encodes a seen-name list `seen`, the
`source_map` and `citation_info` dicts encode the extension of `seen` by the
first-seen-order distinct names of the processed documents, with dense IDs
from 1, `id` fields equal to the keys, and each stored excerpt being the
truncation of the content of some processed (or previously recorded)
document of the same source. -/
theorem assemble_inv (R : Doc → Prop) :
    ∀ (docs : List Doc) (st : AState) (seen : List String),
      st.source_map = seen.zip (List.range' 1 seen.length) →
      st.citation_info.map (fun p => (p.1, p.2.source_name))
          = (List.range' 1 seen.length).zip seen →
      st.citation_counter = seen.length + 1 →
      (∀ p ∈ st.citation_info, p.2.id = p.1) →
      (∀ p ∈ st.citation_info, ∀ e ∈ p.2.excerpts,
          ∃ d, R d ∧ docName d = p.2.source_name ∧ e = mkExcerpt d.page_content) →
      (∀ d ∈ docs, R d) →
      ((docs.foldl assembleStep st).source_map
          = (firstSeenAcc seen (docs.map docName)).zip
              (List.range' 1 (firstSeenAcc seen (docs.map docName)).length)) ∧
      ((docs.foldl assembleStep st).citation_info.map (fun p => (p.1, p.2.source_name))
          = (List.range' 1 (firstSeenAcc seen (docs.map docName)).length).zip
              (firstSeenAcc seen (docs.map docName))) ∧
      ((docs.foldl assembleStep st).citation_counter
          = (firstSeenAcc seen (docs.map docName)).length + 1) ∧
      (∀ p ∈ (docs.foldl assembleStep st).citation_info, p.2.id = p.1) ∧
      (∀ p ∈ (docs.foldl assembleStep st).citation_info, ∀ e ∈ p.2.excerpts,
          ∃ d, R d ∧ docName d = p.2.source_name ∧ e = mkExcerpt d.page_content) := by
  intro docs
  induction docs with
  | nil =>
      intro st seen h1 h2 h3 h4 h5 _
      exact ⟨h1, h2, h3, h4, h5⟩
  | cons doc rest ih =>
      intro st seen h1 h2 h3 h4 h5 hR
      rw [List.map_cons, firstSeenAcc_cons, List.foldl_cons]
      by_cases hmem : docName doc ∈ seen
      · -- the source name was already assigned a citation ID
        obtain ⟨j, hj, hlook⟩ := lookupSM_zip_mem seen (docName doc) 1 hmem
        have hlookup : lookupSM st.source_map (docName doc) = some (1 + j) := by
          rw [h1]; exact hlook
        rw [if_pos hmem, assembleStep_found st doc (1 + j) hlookup]
        refine ih _ seen h1 ?_ h3 ?_ ?_ ?_
        case _ =>
          -- keys and names unchanged
          show (addExcerpt st.citation_info (1 + j) (mkExcerpt doc.page_content)).map
              (fun p => (p.1, p.2.source_name)) = _
          rw [addExcerpt_map_keys]
          exact h2
        case _ =>
          -- ids preserved by addExcerpt
          intro p hp
          obtain ⟨p0, hp0, hkey, hid, _, _⟩ := mem_addExcerpt _ _ _ p hp
          rw [hid, h4 p0 hp0, ← hkey]
        case _ =>
          -- excerpt provenance preserved / extended with the current doc
          intro p hp e he
          obtain ⟨p0, hp0, hkey, _, hnm, hexc⟩ := mem_addExcerpt _ _ _ p hp
          rcases hexc with hsame | ⟨hkeyc, happ⟩
          · rw [hsame] at he
            obtain ⟨d, hd1, hd2, hd3⟩ := h5 p0 hp0 e he
            exact ⟨d, hd1, by rw [hnm]; exact hd2, hd3⟩
          · rw [happ] at he
            rcases List.mem_append.mp he with he1 | he2
            · obtain ⟨d, hd1, hd2, hd3⟩ := h5 p0 hp0 e he1
              exact ⟨d, hd1, by rw [hnm]; exact hd2, hd3⟩
            · rw [List.mem_singleton] at he2
              refine ⟨doc, hR doc (List.mem_cons_self _ _), ?_, he2⟩
              rw [hnm]
              -- the updated entry is keyed 1 + j, whose recorded name is seen[j] = docName doc
              have hmm : (p0.1, p0.2.source_name)
                  ∈ (List.range' 1 seen.length).zip seen := by
                rw [← h2]
                exact List.mem_map_of_mem _ hp0
              obtain ⟨t, ht1, ht2⟩ := mem_zip_getElem _ _ _ _ hmm
              have htlt : t < seen.length := by
                by_contra hcon
                rw [List.getElem?_eq_none (by simp [List.length_range']; omega)] at ht1
                exact Option.noConfusion ht1
              rw [List.getElem?_range' 1 1 htlt] at ht1
              have hp01 : p0.1 = 1 + t := by
                have := Option.some.inj ht1
                omega
              have htj : t = j := by
                rw [hkeyc] at hp01
                omega
              rw [htj] at ht2
              rw [hj] at ht2
              exact (Option.some.inj ht2)
        case _ => exact fun d hd => hR d (List.mem_cons_of_mem _ hd)
      · -- a fresh source name: a new dense ID is appended
        have hlookup : lookupSM st.source_map (docName doc) = none := by
          rw [h1]; exact lookupSM_zip_not_mem seen (docName doc) 1 hmem
        rw [if_neg hmem, assembleStep_new st doc hlookup]
        have hcomm : 1 + seen.length = seen.length + 1 := by omega
        have hlen : (seen ++ [docName doc]).length = seen.length + 1 := by
          simp
        have hrange : List.range' 1 (seen.length + 1)
            = List.range' 1 seen.length ++ [seen.length + 1] := by
          rw [List.range'_1_concat, hcomm]
        have hkeysmall : ∀ p ∈ st.citation_info, p.1 < seen.length + 1 := by
          intro p hp
          have hmm : (p.1, p.2.source_name)
              ∈ (List.range' 1 seen.length).zip seen := by
            rw [← h2]
            exact List.mem_map_of_mem _ hp
          have := (List.of_mem_zip hmm).1
          have := List.mem_range'_1.mp this
          omega
        apply ih _ (seen ++ [docName doc])
        · -- new source_map encodes seen ++ [name]
          show st.source_map ++ [(docName doc, st.citation_counter)] = _
          rw [h1, h3, hlen, hrange,
            List.zip_append (by simp [List.length_range'])]
          simp
        · -- new citation_info keys/names
          show (addExcerpt (st.citation_info
              ++ [(st.citation_counter, ⟨st.citation_counter, docName doc, []⟩)])
              st.citation_counter (mkExcerpt doc.page_content)).map
                (fun p => (p.1, p.2.source_name)) = _
          rw [addExcerpt_map_keys, List.map_append, h2, h3, hlen, hrange,
            List.zip_append (by simp [List.length_range'])]
          simp
        · -- counter advanced
          show st.citation_counter + 1 = _
          rw [h3, hlen]
        · -- id fields still equal the keys
          intro p hp
          obtain ⟨p0, hp0, hkey, hid, _, _⟩ := mem_addExcerpt _ _ _ p hp
          rcases List.mem_append.mp hp0 with hp1 | hp2
          · rw [hid, h4 p0 hp1, ← hkey]
          · rw [List.mem_singleton] at hp2
            rw [hid, hkey, hp2]
        · -- excerpt provenance
          intro p hp e he
          obtain ⟨p0, hp0, hkey, _, hnm, hexc⟩ := mem_addExcerpt _ _ _ p hp
          rcases List.mem_append.mp hp0 with hp1 | hp2
          · -- an old entry: its key is below the counter, so it was not updated
            have hne : ¬ (p0.1 = st.citation_counter) := by
              have := hkeysmall p0 hp1
              rw [h3]
              omega
            rcases hexc with hsame | ⟨hkeyc, _⟩
            · rw [hsame] at he
              obtain ⟨d, hd1, hd2, hd3⟩ := h5 p0 hp1 e he
              exact ⟨d, hd1, by rw [hnm]; exact hd2, hd3⟩
            · exact absurd hkeyc hne
          · -- the fresh entry: its only excerpt is the current doc's truncation
            rw [List.mem_singleton] at hp2
            rcases hexc with hsame | ⟨_, happ⟩
            · rw [hsame, hp2] at he
              simp at he
            · rw [happ, hp2] at he
              simp at he
              refine ⟨doc, hR doc (List.mem_cons_self _ _), ?_, he⟩
              rw [hnm, hp2]
        · exact fun d hd => hR d (List.mem_cons_of_mem _ hd)

theorem firstSeenAcc_nodup (l : List String) :
    ∀ acc : List String, acc.Nodup → (firstSeenAcc acc l).Nodup := by
  induction l with
  | nil => intro acc h; simpa [firstSeenAcc] using h
  | cons n ns ih =>
      intro acc h
      rw [firstSeenAcc_cons]
      by_cases hmem : n ∈ acc
      · rw [if_pos hmem]; exact ih acc h
      · rw [if_neg hmem]
        apply ih
        simp [List.nodup_append, h, hmem]

/-- The citation map produced by `assembleResults`: dense keys `1..K` in
order, names in first-seen order, `id` fields equal to the keys, and every
excerpt the truncation of some input chunk of the same source. -/
theorem assembleResults_spec (results : List Doc) :
    (assembleResults results).2.map Prod.fst
        = List.range' 1 (firstSeen (results.map docName)).length ∧
    (assembleResults results).2.map (fun p => p.2.source_name)
        = firstSeen (results.map docName) ∧
    (∀ p ∈ (assembleResults results).2, p.2.id = p.1) ∧
    (∀ p ∈ (assembleResults results).2, ∀ e ∈ p.2.excerpts,
        ∃ d, d ∈ results ∧ docName d = p.2.source_name ∧ e = mkExcerpt d.page_content) := by
  have h := assemble_inv (fun d => d ∈ results) results initAState []
    rfl rfl rfl (by intro p hp; simp [initAState] at hp)
    (by intro p hp; simp [initAState] at hp) (fun d hd => hd)
  obtain ⟨_, h2, _, h4, h5⟩ := h
  have hkeys : (assembleResults results).2.map Prod.fst
      = List.range' 1 (firstSeen (results.map docName)).length := by
    have hm : ((assembleResults results).2.map (fun p => (p.1, p.2.source_name))).map Prod.fst
        = (assembleResults results).2.map Prod.fst := by
      rw [List.map_map]
      rfl
    rw [← hm]
    show ((results.foldl assembleStep initAState).citation_info.map
        (fun p => (p.1, p.2.source_name))).map Prod.fst = _
    rw [h2, List.map_fst_zip _ _ (by simp [List.length_range'])]
    rfl
  have hnames : (assembleResults results).2.map (fun p => p.2.source_name)
      = firstSeen (results.map docName) := by
    have hm : ((assembleResults results).2.map (fun p => (p.1, p.2.source_name))).map Prod.snd
        = (assembleResults results).2.map (fun p => p.2.source_name) := by
      rw [List.map_map]
      rfl
    rw [← hm]
    show ((results.foldl assembleStep initAState).citation_info.map
        (fun p => (p.1, p.2.source_name))).map Prod.snd = _
    rw [h2, List.map_snd_zip _ _ (by simp [List.length_range'])]
    rfl
  exact ⟨hkeys, hnames, h4, h5⟩


/-! ### Retrieval-mode lemmas -/

theorem balancedResults_eq_flatten (search : VectorSearch) (nb : String) (q : Str)
    (sel : List String) (k : Nat) :
    balancedResults search nb q sel k
      = (sel.map (fun s =>
          match search ⟨q, k, .nbAndSource nb s⟩ with
          | .ok ds => ds
          | .error _ => [])).flatten := by
  suffices h : ∀ acc : List Doc,
      sel.foldl (fun acc s =>
        match search ⟨q, k, .nbAndSource nb s⟩ with
        | .ok ds => acc ++ ds
        | .error _ => acc) acc
      = acc ++ (sel.map (fun s =>
          match search ⟨q, k, .nbAndSource nb s⟩ with
          | .ok ds => ds
          | .error _ => [])).flatten by
    simpa [balancedResults] using h []
  induction sel with
  | nil => intro acc; simp
  | cons s rest ih =>
      intro acc
      rw [List.foldl_cons, List.map_cons, List.flatten_cons]
      cases hs : search ⟨q, k, .nbAndSource nb s⟩ with
      | ok ds =>
          simp only [hs]
          rw [ih, List.append_assoc]
      | error e =>
          simp only [hs]
          rw [ih]
          simp

theorem retrieve_context_balanced (search : VectorSearch) (nb : String) (q : Str)
    (sel : List String) (n : Nat) (h : sel ≠ [] ∧ sel.length ≤ 5) :
    retrieve_context search nb q sel n
      = .ok (assembleResults ((sel.map (fun s =>
          match search ⟨q, max 3 (n / sel.length + 1), .nbAndSource nb s⟩ with
          | .ok ds => ds
          | .error _ => [])).flatten)) := by
  unfold retrieve_context
  rw [if_pos h]
  show Except.ok (assembleResults
      (balancedResults search nb q sel (max 3 (n / sel.length + 1)))) = _
  rw [balancedResults_eq_flatten]

theorem retrieve_context_global (search : VectorSearch) (nb : String) (q : Str)
    (sel : List String) (n : Nat) (h : ¬ (sel ≠ [] ∧ sel.length ≤ 5)) :
    retrieve_context search nb q sel n
      = match search ⟨q, n, globalFilter nb sel⟩ with
        | .ok results => .ok (assembleResults results)
        | .error e => .error e := by
  unfold retrieve_context
  rw [if_neg h]

theorem retrievedDocs_balanced (search : VectorSearch) (nb : String) (q : Str)
    (sel : List String) (n : Nat) (h : sel ≠ [] ∧ sel.length ≤ 5) :
    retrievedDocs search nb q sel n
      = balancedResults search nb q sel (max 3 (n / sel.length + 1)) := by
  unfold retrievedDocs
  rw [if_pos h]

theorem retrieve_context_ok_eq (search : VectorSearch) (nb : String) (q : Str)
    (sel : List String) (n : Nat) (ctx : Str) (cmap : List (Nat × CitationInfo))
    (h : retrieve_context search nb q sel n = .ok (ctx, cmap)) :
    (ctx, cmap) = assembleResults (retrievedDocs search nb q sel n) := by
  by_cases hb : sel ≠ [] ∧ sel.length ≤ 5
  · rw [retrieve_context_balanced search nb q sel n hb] at h
    rw [retrievedDocs_balanced search nb q sel n hb, balancedResults_eq_flatten]
    exact (Except.ok.inj h).symm
  · rw [retrieve_context_global search nb q sel n hb] at h
    unfold retrievedDocs
    rw [if_neg hb]
    cases hs : search ⟨q, n, globalFilter nb sel⟩ with
    | ok ds =>
        rw [hs] at h
        exact (Except.ok.inj h).symm
    | error e =>
        rw [hs] at h
        exact absurd h (by simp)


/-- C1: for every retrieval call whose result list spans K distinct source
names, the returned citation map has exactly K entries, keyed by the dense
IDs `1..K` in order with no gaps, each distinct source name owns exactly one
`CitationInfo` (the entries' name list is duplicate-free and enumerates the
distinct names), IDs are assigned in the order each source name first
appears in the result list, and each entry's `id` field equals its key. -/
theorem retrieve_context_citation_density (search : VectorSearch) (nb : String)
    (q : Str) (sel : List String) (n : Nat) (ctx : Str)
    (cmap : List (Nat × CitationInfo))
    (h : retrieve_context search nb q sel n = .ok (ctx, cmap)) :
    cmap.length = (firstSeen ((retrievedDocs search nb q sel n).map docName)).length ∧
    cmap.map Prod.fst
      = List.range' 1 (firstSeen ((retrievedDocs search nb q sel n).map docName)).length ∧
    cmap.map (fun p => p.2.source_name)
      = firstSeen ((retrievedDocs search nb q sel n).map docName) ∧
    (cmap.map (fun p => p.2.source_name)).Nodup ∧
    (∀ p ∈ cmap, p.2.id = p.1) := by
  have hpair := retrieve_context_ok_eq search nb q sel n ctx cmap h
  have hcm : cmap = (assembleResults (retrievedDocs search nb q sel n)).2 :=
    congrArg Prod.snd hpair
  obtain ⟨hk, hn, hi, _⟩ := assembleResults_spec (retrievedDocs search nb q sel n)
  subst hcm
  refine ⟨?_, hk, hn, ?_, hi⟩
  · have := congrArg List.length hk
    simpa [List.length_range'] using this
  · rw [hn]
    exact firstSeenAcc_nodup _ [] List.nodup_nil

/-- C1 witness: a concrete global retrieval over three chunks spanning two
sources has citation IDs `[1, 2]`. -/
theorem retrieve_context_citation_density_witness :
    retrieve_context wSearch ("nb") [] [] 5
      = .ok ((assembleResults wDocs).1, (assembleResults wDocs).2) ∧
    (assembleResults wDocs).2.map Prod.fst
      = List.range' 1 (firstSeen ((retrievedDocs wSearch ("nb") [] [] 5).map docName)).length :=
  ⟨rfl, (retrieve_context_citation_density wSearch ("nb") [] [] 5
      (assembleResults wDocs).1 (assembleResults wDocs).2 rfl).2.1⟩

/-- C7: every excerpt stored during context assembly is the truncation of a
retrieved chunk of the same source; the truncation keeps a text of at most
300 characters whole, replaces a longer text with its first 300 characters
followed by `...`, and in particular maps a 310-character chunk to an
excerpt of exactly 303 characters. -/
theorem excerpt_truncation :
    (∀ results : List Doc, ∀ p ∈ (assembleResults results).2, ∀ e ∈ p.2.excerpts,
        ∃ d, d ∈ results ∧ docName d = p.2.source_name ∧ e = mkExcerpt d.page_content) ∧
    (∀ s : Str, s.length ≤ 300 → mkExcerpt s = s) ∧
    (∀ s : Str, 300 < s.length → mkExcerpt s = s.take 300 ++ ("...").data) ∧
    (∀ s : Str, s.length = 310 → (mkExcerpt s).length = 303) := by
  refine ⟨?_, ?_, ?_, ?_⟩
  · intro results p hp e he
    exact (assembleResults_spec results).2.2.2 p hp e he
  · intro s hs
    unfold mkExcerpt
    rw [if_neg (by omega)]
  · intro s hs
    unfold mkExcerpt
    rw [if_pos hs]
  · intro s hs
    unfold mkExcerpt
    rw [if_pos (by omega)]
    have h3 : (("...").data).length = 3 := rfl
    rw [List.length_append, List.length_take, h3, hs]
    omega

/-- C7 witness: a 310-character chunk yields a 303-character excerpt. -/
theorem excerpt_truncation_witness :
    (List.replicate 310 'a').length = 310 ∧
    (mkExcerpt (List.replicate 310 'a')).length = 303 :=
  ⟨by rw [List.length_replicate],
   excerpt_truncation.2.2.2 (List.replicate 310 'a') (by rw [List.length_replicate])⟩

/-- C2: retrieval uses balanced mode — one per-source similarity search with
the per-source `k`, the results then assembled — exactly when the selection
is non-empty with at most 5 entries, and otherwise issues one single global
similarity search requesting exactly `n_results` chunks (with the `$in`
filter when a too-large selection is present). -/
theorem retrieval_mode_threshold (search : VectorSearch) (nb : String) (q : Str)
    (sel : List String) (n : Nat) :
    (sel ≠ [] ∧ sel.length ≤ 5 →
      retrieve_context search nb q sel n
        = .ok (assembleResults ((sel.map (fun s =>
            match search ⟨q, max 3 (n / sel.length + 1), .nbAndSource nb s⟩ with
            | .ok ds => ds
            | .error _ => [])).flatten))) ∧
    (sel = [] ∨ 5 < sel.length →
      retrieve_context search nb q sel n
        = match search ⟨q, n, globalFilter nb sel⟩ with
          | .ok results => .ok (assembleResults results)
          | .error e => .error e) := by
  constructor
  · exact fun h => retrieve_context_balanced search nb q sel n h
  · intro h
    apply retrieve_context_global
    rcases h with h | h
    · simp [h]
    · intro hc
      exact absurd hc.2 (by omega)

/-- C2 witness: the boundary: exactly 5 selected sources take the balanced
branch, 6 take the global branch with `k = n_results = 10`. -/
theorem retrieval_mode_threshold_witness :
    (wSel5 ≠ [] ∧ wSel5.length ≤ 5) ∧ (wSel6 = [] ∨ 5 < wSel6.length) ∧
    retrieve_context wSearch ("nb") [] wSel5 10
      = .ok (assembleResults ((wSel5.map (fun s =>
          match wSearch ⟨[], max 3 (10 / wSel5.length + 1), .nbAndSource ("nb") s⟩ with
          | .ok ds => ds
          | .error _ => [])).flatten)) ∧
    retrieve_context wSearch ("nb") [] wSel6 10
      = match wSearch ⟨[], 10, globalFilter ("nb") wSel6⟩ with
        | .ok results => .ok (assembleResults results)
        | .error e => .error e :=
  ⟨⟨by decide, by decide⟩, Or.inr (by decide),
   (retrieval_mode_threshold wSearch ("nb") [] wSel5 10).1 ⟨by decide, by decide⟩,
   (retrieval_mode_threshold wSearch ("nb") [] wSel6 10).2 (Or.inr (by decide))⟩

/-- C3: in balanced mode with S selected sources (1 ≤ S ≤ 5), each selected
source gets exactly one similarity search requesting exactly
`max(3, floor(n_results / S) + 1)` results, and contributes exactly those
results to the assembled context (nothing when its sub-query raises). -/
theorem balanced_per_source_attempts (search : VectorSearch) (nb : String) (q : Str)
    (sel : List String) (n : Nat) (h1 : sel ≠ []) (h2 : sel.length ≤ 5) :
    ∃ contrib : String → List Doc,
      retrieve_context search nb q sel n
        = .ok (assembleResults ((sel.map contrib).flatten)) ∧
      ∀ s ∈ sel,
        search ⟨q, max 3 (n / sel.length + 1), .nbAndSource nb s⟩ = .ok (contrib s) ∨
        ∃ e, search ⟨q, max 3 (n / sel.length + 1), .nbAndSource nb s⟩ = .error e
          ∧ contrib s = [] := by
  refine ⟨fun s => match search ⟨q, max 3 (n / sel.length + 1), .nbAndSource nb s⟩ with
      | .ok ds => ds
      | .error _ => [], ?_, ?_⟩
  · exact retrieve_context_balanced search nb q sel n ⟨h1, h2⟩
  · intro s _
    cases hs : search ⟨q, max 3 (n / sel.length + 1), .nbAndSource nb s⟩ with
    | ok ds =>
        left
        simp [hs]
    | error e =>
        right
        refine ⟨e, rfl, ?_⟩
        show (match search ⟨q, max 3 (n / sel.length + 1), .nbAndSource nb s⟩ with
          | .ok ds => ds
          | .error _ => []) = []
        rw [hs]

/-- C3 witness: two selected sources with `n_results = 10` each request
`max(3, 10/2 + 1) = 6` results. -/
theorem balanced_per_source_attempts_witness :
    wSel2 ≠ [] ∧ wSel2.length ≤ 5 ∧
    (∃ contrib : String → List Doc,
      retrieve_context wSearch ("nb") [] wSel2 10
        = .ok (assembleResults ((wSel2.map contrib).flatten)) ∧
      ∀ s ∈ wSel2,
        wSearch ⟨[], max 3 (10 / wSel2.length + 1), .nbAndSource ("nb") s⟩ = .ok (contrib s) ∨
        ∃ e, wSearch ⟨[], max 3 (10 / wSel2.length + 1), .nbAndSource ("nb") s⟩ = .error e
          ∧ contrib s = []) :=
  ⟨by decide, by decide,
   balanced_per_source_attempts wSearch ("nb") [] wSel2 10 (by decide) (by decide)⟩


/-! ### Full-context and streaming lemmas -/

theorem fullContextParts_eq (full : List SrcEntry) :
    ∀ i : Nat, fullContextParts i full
      = (((List.range' (i + 1) full.length).zip full).map
            (fun p => contextBlock p.1 (srcName p.2) (srcContent p.2)),
         ((List.range' (i + 1) full.length).zip full).map
            (fun p => (p.1, ⟨p.1, srcName p.2, [fullDocExcerpt]⟩))) := by
  induction full with
  | nil => intro i; rfl
  | cons src rest ih =>
      intro i
      rw [List.length_cons, List.range'_succ, List.zip_cons_cons]
      simp only [List.map_cons]
      rw [fullContextParts, ih (i + 1)]

theorem map_const_replicate {α β : Type} (c : β) :
    ∀ l : List α, l.map (fun _ => c) = List.replicate l.length c := by
  intro l
  induction l with
  | nil => rfl
  | cons a t ih => simp [ih, List.replicate_succ]

theorem intercalate_infix_of_mem (sep : Str) :
    ∀ (parts : List Str) (x : Str), x ∈ parts →
      ∃ pre post : Str, List.intercalate sep parts = pre ++ x ++ post := by
  intro parts
  induction parts with
  | nil => intro x hx; simp at hx
  | cons a rest ih =>
      intro x hx
      rcases List.mem_cons.mp hx with h1 | h1
      · subst h1
        cases rest with
        | nil => exact ⟨[], [], by simp [List.intercalate]⟩
        | cons b t =>
            refine ⟨[], sep ++ List.intercalate sep (b :: t), ?_⟩
            simp [List.intercalate, List.intersperse]
      · obtain ⟨pre, post, hp⟩ := ih x h1
        cases rest with
        | nil => simp at h1
        | cons b t =>
            refine ⟨a ++ sep ++ pre, post, ?_⟩
            have hstep : List.intercalate sep (a :: b :: t)
                = a ++ sep ++ List.intercalate sep (b :: t) := by
              simp [List.intercalate, List.intersperse]
            rw [hstep, hp]
            simp [List.append_assoc]

theorem contextBlock_infix (cid : Nat) (name : String) (content : Str) :
    ∃ pre post : Str, contextBlock cid name content = pre ++ content ++ post :=
  ⟨_, _, rfl⟩

theorem zip_getElem_mem {α β : Type} :
    ∀ (a : List α) (b : List β) (j : Nat) (x : α) (y : β),
      a[j]? = some x → b[j]? = some y → (x, y) ∈ a.zip b := by
  intro a
  induction a with
  | nil => intro b j x y hx; simp at hx
  | cons a0 atl ih =>
      intro b j x y hx hy
      cases b with
      | nil => simp at hy
      | cons b0 btl =>
          cases j with
          | zero =>
              simp only [List.getElem?_cons_zero] at hx hy
              rw [List.zip_cons_cons]
              rw [Option.some.inj hx, Option.some.inj hy]
              exact List.mem_cons_self _ _
          | succ j =>
              rw [List.getElem?_cons_succ] at hx hy
              rw [List.zip_cons_cons]
              exact List.mem_cons_of_mem _ (ih btl j x y hx hy)

/-- C5: when `stream_response` is given a non-empty `full_source_content`
list of N sources, citation IDs are `1..N` in list order, every excerpt
list is exactly the full-document sentinel, the assembled context is the
join of the N context blocks each of which contains its source's full
content verbatim (no 300-character truncation), and similarity search is
bypassed entirely: the output is independent of the vector store oracle. -/
theorem full_context_bypass (full : List SrcEntry) (h : full ≠ []) :
    ((buildFullContext full).2.map Prod.fst = List.range' 1 full.length) ∧
    ((buildFullContext full).2.map (fun p => p.2.source_name) = full.map srcName) ∧
    ((buildFullContext full).2.map (fun p => p.2.excerpts)
        = List.replicate full.length [fullDocExcerpt]) ∧
    ((buildFullContext full).1 = List.intercalate (("\n\n").data)
        (((List.range' 1 full.length).zip full).map
          (fun p => contextBlock p.1 (srcName p.2) (srcContent p.2)))) ∧
    (∀ src ∈ full, ∃ pre post : Str,
        (buildFullContext full).1 = pre ++ srcContent src ++ post) ∧
    (∀ (search search' : VectorSearch) (dumps : JsonDumps) (chat : ChatStream)
        (nb : String) (msgs : List Message) (sel : List String),
        stream_response search dumps chat nb msgs sel full
          = stream_response search' dumps chat nb msgs sel full) := by
  have hparts := fullContextParts_eq full 0
  have hinfo : (buildFullContext full).2
      = ((List.range' 1 full.length).zip full).map
          (fun p => (p.1, ⟨p.1, srcName p.2, [fullDocExcerpt]⟩)) := by
    unfold buildFullContext
    rw [hparts]
  have hctx : (buildFullContext full).1
      = List.intercalate (("\n\n").data)
          (((List.range' 1 full.length).zip full).map
            (fun p => contextBlock p.1 (srcName p.2) (srcContent p.2))) := by
    unfold buildFullContext
    rw [hparts]
  have hzlen : ((List.range' 1 full.length).zip full).length = full.length := by
    simp [List.length_zip, List.length_range']
  refine ⟨?_, ?_, ?_, hctx, ?_, ?_⟩
  · rw [hinfo, List.map_map]
    have : ((List.range' 1 full.length).zip full).map
        (Prod.fst ∘ fun p => (p.1,
          (⟨p.1, srcName p.2, [fullDocExcerpt]⟩ : CitationInfo)))
        = ((List.range' 1 full.length).zip full).map Prod.fst := rfl
    rw [this, List.map_fst_zip _ _ (by simp [List.length_range'])]
  · rw [hinfo, List.map_map]
    have : ((List.range' 1 full.length).zip full).map
        ((fun p => p.2.source_name) ∘ fun p => ((p : Nat × SrcEntry).1,
          (⟨p.1, srcName p.2, [fullDocExcerpt]⟩ : CitationInfo)))
        = ((List.range' 1 full.length).zip full).map (srcName ∘ Prod.snd) := rfl
    rw [this, ← List.map_map, List.map_snd_zip _ _ (by simp [List.length_range'])]
  · rw [hinfo, List.map_map]
    have : ((List.range' 1 full.length).zip full).map
        ((fun p => p.2.excerpts) ∘ fun p => ((p : Nat × SrcEntry).1,
          (⟨p.1, srcName p.2, [fullDocExcerpt]⟩ : CitationInfo)))
        = ((List.range' 1 full.length).zip full).map (fun _ => [fullDocExcerpt]) := rfl
    rw [this, map_const_replicate, hzlen]
  · intro src hsrc
    obtain ⟨j, hj⟩ := List.getElem?_of_mem hsrc
    have hjlt : j < full.length := by
      by_contra hcon
      rw [List.getElem?_eq_none (by omega)] at hj
      exact Option.noConfusion hj
    have hr : (List.range' 1 full.length)[j]? = some (1 + j) := by
      rw [List.getElem?_range' 1 1 hjlt]
      norm_num
    have hmm : (1 + j, src) ∈ (List.range' 1 full.length).zip full :=
      zip_getElem_mem _ _ j _ _ hr hj
    have hblock : contextBlock (1 + j) (srcName src) (srcContent src)
        ∈ ((List.range' 1 full.length).zip full).map
            (fun p => contextBlock p.1 (srcName p.2) (srcContent p.2)) := by
      apply List.mem_map.mpr
      refine ⟨(1 + j, src), hmm, ?_⟩
      rfl
    obtain ⟨pre, post, hp⟩ := intercalate_infix_of_mem (("\n\n").data) _ _ hblock
    obtain ⟨bpre, bpost, hb⟩ := contextBlock_infix (1 + j) (srcName src) (srcContent src)
    refine ⟨pre ++ bpre, bpost ++ post, ?_⟩
    rw [hctx, hp, hb]
    simp [List.append_assoc]
  · intro search search' dumps chat nb msgs sel
    unfold stream_response
    cases msgs.getLast? with
    | none => rfl
    | some last =>
        have hb : ∀ sr : VectorSearch,
            builtContext sr nb last.content sel full = .ok (buildFullContext full) := by
          intro sr
          unfold builtContext
          rw [if_pos h]
        simp only [hb search, hb search']

/-- C5 witness: the spec's example, sources A = "foo" and B = "bar". -/
theorem full_context_bypass_witness :
    wFull2 ≠ [] ∧
    ((buildFullContext wFull2).2.map Prod.fst = List.range' 1 wFull2.length) ∧
    ((buildFullContext wFull2).2.map (fun p => p.2.excerpts)
        = List.replicate wFull2.length [fullDocExcerpt]) :=
  ⟨by decide, (full_context_bypass wFull2 (by decide)).1,
   (full_context_bypass wFull2 (by decide)).2.2.1⟩

/-- C4: whenever `stream_response` completes without error, its output is
exactly the chat provider's fragments followed — only at the very end,
never interleaved — by the sentinel line and exactly one serialised
citation object, this footer being present if and only if the citation map
built for the call is non-empty. -/
theorem stream_citation_footer (search : VectorSearch) (dumps : JsonDumps)
    (chat : ChatStream) (nb : String) (messages : List Message)
    (sel : List String) (full : List SrcEntry) (frags : List Str)
    (hok : stream_response search dumps chat nb messages sel full = (frags, none)) :
    ∃ last ctx cmap,
      messages.getLast? = some last ∧
      builtContext search nb last.content sel full = .ok (ctx, cmap) ∧
      (chat (Message.mk ("system") (SYSTEM_PROMPT ctx) :: messages)).2 = none ∧
      frags = (chat (Message.mk ("system") (SYSTEM_PROMPT ctx) :: messages)).1
        ++ (if cmap ≠ [] then [citationSentinel, dumps (citationPayload cmap)] else []) := by
  unfold stream_response at hok
  split at hok
  next hms =>
      exact absurd (congrArg Prod.snd hok) (by simp)
  next last hms =>
      refine ⟨last, ?_⟩
      split at hok
      next e hctx =>
          exact absurd (congrArg Prod.snd hok) (by simp)
      next ctx cmap hctx =>
          refine ⟨ctx, cmap, hms, hctx, ?_⟩
          split at hok
          next cfr e hchat =>
              exact absurd (congrArg Prod.snd hok) (by simp)
          next cfr hchat =>
              rw [hchat]
              by_cases hcm : cmap ≠ []
              · rw [if_pos hcm] at hok
                refine ⟨rfl, ?_⟩
                rw [if_pos hcm]
                exact (congrArg Prod.fst hok).symm
              · rw [if_neg hcm] at hok
                refine ⟨rfl, ?_⟩
                rw [if_neg hcm, List.append_nil]
                exact (congrArg Prod.fst hok).symm

/-- C4 witness: a clean full-context stream yields the chat fragment, the
sentinel, then the serialised citations. -/
theorem stream_citation_footer_witness :
    stream_response wSearch wDumps wChat ("nb") wMsgs [] wFull2
      = ([("hi").data, citationSentinel, ("{}").data], none) ∧
    ∃ last ctx cmap,
      wMsgs.getLast? = some last ∧
      builtContext wSearch ("nb") last.content [] wFull2 = .ok (ctx, cmap) ∧
      (wChat (Message.mk ("system") (SYSTEM_PROMPT ctx) :: wMsgs)).2 = none ∧
      [("hi").data, citationSentinel, ("{}").data]
        = (wChat (Message.mk ("system") (SYSTEM_PROMPT ctx) :: wMsgs)).1
          ++ (if cmap ≠ [] then [citationSentinel, wDumps (citationPayload cmap)] else []) :=
  ⟨rfl, stream_citation_footer wSearch wDumps wChat ("nb") wMsgs [] wFull2
      [("hi").data, citationSentinel, ("{}").data] rfl⟩

/-- C9: `stream_chat_response` forwards the fragments of the underlying
stream and converts any exception — including one raised mid-stream after
fragments were already yielded — into one final visible
`Error generating response: ...` fragment, terminating normally; an
error-free stream is forwarded unchanged. -/
theorem streaming_error_contained (search : VectorSearch) (dumps : JsonDumps)
    (chat : ChatStream) (nb : String) (messages : List Message)
    (sel : List String) (full : List SrcEntry) :
    (∀ frags e, stream_response search dumps chat nb messages sel full = (frags, some e) →
      stream_chat_response search dumps chat nb messages sel full
        = frags ++ [errorResponseText e]) ∧
    (∀ frags, stream_response search dumps chat nb messages sel full = (frags, none) →
      stream_chat_response search dumps chat nb messages sel full = frags) := by
  constructor
  · intro frags e h
    unfold stream_chat_response
    rw [h]
  · intro frags h
    unfold stream_chat_response
    rw [h]

/-- C9 witness: a chat provider failing after one fragment produces that
fragment followed by the error fragment. -/
theorem streaming_error_contained_witness :
    stream_response wSearch wDumps wChatErr ("nb") wMsgs [] wFull2
      = ([("half an answer").data], some (Err.runtime ("boom"))) ∧
    stream_chat_response wSearch wDumps wChatErr ("nb") wMsgs [] wFull2
      = [("half an answer").data] ++ [errorResponseText (Err.runtime ("boom"))] :=
  ⟨rfl, (streaming_error_contained wSearch wDumps wChatErr ("nb") wMsgs [] wFull2).1
      [("half an answer").data] (Err.runtime ("boom")) rfl⟩


/-! ### Registry lemmas -/

theorem lookupInst_cons (p : String × ProviderInstance)
    (m : List (String × ProviderInstance)) (k : String) :
    lookupInst (p :: m) k = if p.1 = k then some p.2 else lookupInst m k := by
  simp only [lookupInst, List.find?_cons]
  by_cases h : p.1 = k
  · simp [h]
  · have hb : (p.1 == k) = false := by simp [h]
    simp [h, hb]

theorem lookupInst_append (m₁ m₂ : List (String × ProviderInstance)) (k : String) :
    lookupInst (m₁ ++ m₂) k = (lookupInst m₁ k).or (lookupInst m₂ k) := by
  simp only [lookupInst, List.find?_append]
  cases h : List.find? (fun p => p.1 == k) m₁ <;> simp [h]

theorem lookupInst_updateInst_isSome (k : String)
    (f : ProviderInstance → ProviderInstance) (k' : String) :
    ∀ m : List (String × ProviderInstance),
      (lookupInst (updateInst m k f) k').isSome = (lookupInst m k').isSome := by
  intro m
  induction m with
  | nil => rfl
  | cons p rest ih =>
      show (lookupInst ((if p.1 = k then (p.1, f p.2) else p) :: updateInst rest k f) k').isSome = _
      rw [lookupInst_cons, lookupInst_cons]
      by_cases hpk : p.1 = k
      · rw [if_pos hpk]
        by_cases hpk' : p.1 = k'
        · rw [if_pos hpk', if_pos hpk']
          rfl
        · rw [if_neg hpk', if_neg hpk']
          exact ih
      · rw [if_neg hpk]
        by_cases hpk' : p.1 = k'
        · rw [if_pos hpk', if_pos hpk']
        · rw [if_neg hpk', if_neg hpk']
          exact ih

theorem get_provider_mem (env : Env) (r : Registry) (name : String)
    (h : name ∈ PROVIDERS) :
    ∃ r' inst, r.get_provider env name = (r', .ok inst)
      ∧ r'.chat_provider_name = r.chat_provider_name
      ∧ r'.chat_model = r.chat_model
      ∧ r'.embedding_provider_name = r.embedding_provider_name
      ∧ r'.embedding_model = r.embedding_model
      ∧ (∀ k, (lookupInst r.instances k).isSome = true
            → (lookupInst r'.instances k).isSome = true) := by
  unfold Registry.get_provider
  rw [if_pos h]
  cases hl : lookupInst r.instances name with
  | some inst => exact ⟨r, inst, rfl, rfl, rfl, rfl, rfl, fun k hk => hk⟩
  | none =>
      refine ⟨_, _, rfl, rfl, rfl, rfl, rfl, ?_⟩
      intro k hk
      show (lookupInst (r.instances ++ [(name, newInstance env name)]) k).isSome = true
      rw [lookupInst_append]
      cases hx : lookupInst r.instances k with
      | some i => simp
      | none => rw [hx] at hk; simp at hk

theorem set_chat_provider_mem (env : Env) (r : Registry) (pname : String)
    (m : Option String) (h : pname ∈ PROVIDERS) :
    ∃ r', Registry.set_chat_provider env r pname m = (r', .ok ())
      ∧ r'.chat_provider_name = pname ∧ r'.chat_model = m
      ∧ r'.embedding_provider_name = r.embedding_provider_name
      ∧ r'.embedding_model = r.embedding_model
      ∧ (∀ k, (lookupInst r.instances k).isSome = true
            → (lookupInst r'.instances k).isSome = true) := by
  unfold Registry.set_chat_provider
  rw [if_pos h]
  cases ht : truthyS m with
  | false =>
      refine ⟨_, rfl, rfl, rfl, rfl, rfl, fun k hk => hk⟩
  | true =>
      obtain ⟨r', inst, hg, hc1, hc2, he1, he2, hmono⟩ :=
        get_provider_mem env { r with chat_provider_name := pname, chat_model := m } pname h
      simp only [hg]
      refine ⟨_, rfl, ?_, ?_, ?_, ?_, ?_⟩
      · exact hc1
      · exact hc2
      · exact he1
      · exact he2
      · intro k hk
        show (lookupInst (updateInst r'.instances pname
            (fun i => { i with chat_model := m })) k).isSome = true
        rw [lookupInst_updateInst_isSome]
        exact hmono k hk

theorem set_embedding_provider_unsupported (env : Env) (r : Registry) (pname : String)
    (m : Option String) (hp : pname ∈ PROVIDERS)
    (hns : (capabilitiesOf pname).supports_embeddings = false) :
    ∃ r' e, Registry.set_embedding_provider env r pname m = (r', .error e)
      ∧ r'.chat_provider_name = r.chat_provider_name ∧ r'.chat_model = r.chat_model
      ∧ r'.embedding_provider_name = r.embedding_provider_name
      ∧ r'.embedding_model = r.embedding_model := by
  unfold Registry.set_embedding_provider
  rw [if_pos hp]
  obtain ⟨r', inst, hg, hc1, hc2, he1, he2, _⟩ := get_provider_mem env r pname hp
  simp only [hg, hns]
  exact ⟨r', _, rfl, hc1, hc2, he1, he2⟩

theorem set_embedding_provider_ollama (env : Env) (r : Registry) (m : Option String) :
    ∃ r', Registry.set_embedding_provider env r ("ollama") m = (r', .ok ())
      ∧ r'.embedding_provider_name = "ollama" ∧ r'.embedding_model = m
      ∧ r'.chat_provider_name = r.chat_provider_name
      ∧ r'.chat_model = r.chat_model := by
  unfold Registry.set_embedding_provider
  rw [if_pos (by decide : ("ollama" : String) ∈ PROVIDERS)]
  obtain ⟨r', inst, hg, hc1, hc2, he1, he2, _⟩ :=
    get_provider_mem env r ("ollama") (by decide)
  simp only [hg]
  rw [show (capabilitiesOf ("ollama")).supports_embeddings = true from rfl]
  cases ht : truthyS m with
  | false => exact ⟨_, rfl, rfl, rfl, hc1, hc2⟩
  | true => exact ⟨_, rfl, rfl, rfl, hc1, hc2⟩

theorem applyApiKeys_ok (env : Env) :
    ∀ (keys : List (String × String)) (r : Registry),
      (∀ pk ∈ keys, pk.1 = "ollama" → (lookupInst r.instances ("ollama")).isSome = true) →
      ∃ r', applyApiKeys env r keys = .ok r'
        ∧ r'.chat_provider_name = r.chat_provider_name
        ∧ r'.chat_model = r.chat_model
        ∧ r'.embedding_provider_name = r.embedding_provider_name
        ∧ r'.embedding_model = r.embedding_model := by
  intro keys
  induction keys with
  | nil => intro r _; exact ⟨r, rfl, rfl, rfl, rfl, rfl⟩
  | cons pk rest ih =>
      intro r hk
      rw [applyApiKeys]
      by_cases hl : (lookupInst r.instances pk.1).isSome = true
      · rw [if_pos hl]
        have hk1 : ∀ pk' ∈ rest, pk'.1 = "ollama" →
            (lookupInst (updateInst r.instances pk.1
              (fun i => { i with api_key := some pk.2 })) ("ollama")).isSome = true := by
          intro pk' hp' he'
          rw [lookupInst_updateInst_isSome]
          exact hk pk' (List.mem_cons_of_mem _ hp') he'
        obtain ⟨r', hr', h1, h2, h3, h4⟩ := ih { r with instances := (updateInst r.instances
            pk.1 (fun i => { i with api_key := some pk.2 })) } hk1
        exact ⟨r', hr', h1, h2, h3, h4⟩
      · rw [if_neg hl]
        by_cases hpv : pk.1 ∈ PROVIDERS
        · rw [if_pos hpv]
          have hno : ¬ (pk.1 = "ollama") := by
            intro he
            rw [he] at hl
            exact hl (hk pk (List.mem_cons_self _ _) he)
          unfold preCreate
          rw [if_neg hno]
          have hk1 : ∀ pk' ∈ rest, pk'.1 = "ollama" →
              (lookupInst (r.instances ++ [(pk.1,
                { newInstance env pk.1 with
                    api_key := orElseS (some pk.2) ((newInstance env pk.1).api_key) })])
                ("ollama")).isSome = true := by
            intro pk' hp' he'
            rw [lookupInst_append]
            have hs := hk pk' (List.mem_cons_of_mem _ hp') he'
            cases hx : lookupInst r.instances ("ollama") with
            | some i => simp
            | none => rw [hx] at hs; simp at hs
          obtain ⟨r', hr', h1, h2, h3, h4⟩ := ih { r with instances := r.instances ++ [(pk.1,
              { newInstance env pk.1 with
                  api_key := orElseS (some pk.2) ((newInstance env pk.1).api_key) })] } hk1
          exact ⟨r', hr', h1, h2, h3, h4⟩
        · rw [if_neg hpv]
          exact ih r (fun pk' hp' he' => hk pk' (List.mem_cons_of_mem _ hp') he')


/-- C8: selecting a provider whose capabilities lack embedding support as the
embedding provider makes `set_embedding_provider` raise a `ValueError` and
leaves the active embedding selection (provider name and model) unchanged;
and the Anthropic adapter's own `get_embeddings` and `embed_text` raise
rather than delegating to any other provider. -/
theorem embedding_capability_gating (env : Env) (r : Registry) (pname : String)
    (m : Option String) (hp : pname ∈ PROVIDERS)
    (hns : (capabilitiesOf pname).supports_embeddings = false) :
    (∃ e, (Registry.set_embedding_provider env r pname m).2 = .error e) ∧
    (Registry.set_embedding_provider env r pname m).1.embedding_provider_name
      = r.embedding_provider_name ∧
    (Registry.set_embedding_provider env r pname m).1.embedding_model
      = r.embedding_model ∧
    (∀ mn, ∃ e, anthropic_get_embeddings mn = .error e) ∧
    (∀ (V : Type) (aembed : Embeddings → Str → V) (text : Str) (mn : Option String),
        ∃ e, anthropic_embed_text aembed text mn = .error e) := by
  obtain ⟨r', e, hs, _, _, he1, he2⟩ :=
    set_embedding_provider_unsupported env r pname m hp hns
  rw [hs]
  exact ⟨⟨e, rfl⟩, he1, he2, fun mn => ⟨_, rfl⟩, fun V aembed text mn => ⟨_, rfl⟩⟩

/-- C8 witness: requesting `anthropic` as embedding provider on a fresh
registry errors and keeps the default `ollama` embedding selection. -/
theorem embedding_capability_gating_witness :
    (("anthropic" : String) ∈ PROVIDERS ∧
      (capabilitiesOf ("anthropic")).supports_embeddings = false) ∧
    (∃ e, (Registry.set_embedding_provider wEnv initRegistry ("anthropic") none).2
        = .error e) ∧
    (Registry.set_embedding_provider wEnv initRegistry
        ("anthropic") none).1.embedding_provider_name
      = initRegistry.embedding_provider_name :=
  ⟨⟨by decide, by decide⟩,
   (embedding_capability_gating wEnv initRegistry ("anthropic") none
      (by decide) (by decide)).1,
   (embedding_capability_gating wEnv initRegistry ("anthropic") none
      (by decide) (by decide)).2.1⟩

/-- C10 counterexample: settings may satisfy the claim's premise (embedding
provider registered but embeddings-incapable) while also naming an unknown
chat provider; `configure_from_settings` then propagates the chat
`ValueError` — it does not return successfully and the requested chat
selection is not applied, contradicting the claim as universally stated. -/
theorem configure_fallback_counterexample :
    (wSettingsBad.embedding_provider.getD ("ollama") ∈ PROVIDERS ∧
      (capabilitiesOf (wSettingsBad.embedding_provider.getD ("ollama"))).supports_embeddings
        = false) ∧
    (Registry.configure_from_settings wEnv initRegistry wSettingsBad).2
      = .error (.valueError ("Unknown provider: nope")) ∧
    (Registry.configure_from_settings wEnv initRegistry wSettingsBad).1.chat_provider_name
      ≠ wSettingsBad.chat_provider.getD ("ollama") :=
  ⟨⟨by decide, by decide⟩, rfl, by decide⟩

/-- C10 (amended): for settings whose embedding provider is registered but
lacks embedding support, `configure_from_settings` swallows the
configuration error and selects `"ollama"` with the requested embedding
model, while the requested chat selection is applied — provided the
requested chat provider (default `"ollama"`) is itself registered and the
`api_keys` loop does not pre-create the keyless `ollama` adapter (whose
constructor accepts no `api_key` argument and would raise `TypeError`). -/
theorem configure_fallback (env : Env) (r : Registry) (s : Settings)
    (hchat : s.chat_provider.getD ("ollama") ∈ PROVIDERS)
    (hkeys : ∀ pk ∈ s.api_keys, pk.1 = "ollama"
        → (lookupInst r.instances ("ollama")).isSome = true)
    (hemb : s.embedding_provider.getD ("ollama") ∈ PROVIDERS)
    (hns : (capabilitiesOf (s.embedding_provider.getD ("ollama"))).supports_embeddings
        = false) :
    (Registry.configure_from_settings env r s).2 = .ok () ∧
    (Registry.configure_from_settings env r s).1.embedding_provider_name = "ollama" ∧
    (Registry.configure_from_settings env r s).1.embedding_model = s.embedding_model ∧
    (Registry.configure_from_settings env r s).1.chat_provider_name
      = s.chat_provider.getD ("ollama") ∧
    (Registry.configure_from_settings env r s).1.chat_model = s.chat_model := by
  obtain ⟨r1, hr1, _, _, _, _⟩ := applyApiKeys_ok env s.api_keys r hkeys
  obtain ⟨r2, hr2, hcc1, hcc2, _, _, _⟩ :=
    set_chat_provider_mem env r1 (s.chat_provider.getD ("ollama")) s.chat_model hchat
  obtain ⟨r3, e3, hr3, hec1, hec2, _, _⟩ :=
    set_embedding_provider_unsupported env r2 (s.embedding_provider.getD ("ollama"))
      s.embedding_model hemb hns
  obtain ⟨r4, hr4, hoe1, hoe2, hoc1, hoc2⟩ :=
    set_embedding_provider_ollama env r3 s.embedding_model
  unfold Registry.configure_from_settings
  simp only [hr1, hr2, hr3, hr4]
  refine ⟨by trivial, hoe1, hoe2, ?_, ?_⟩
  · rw [hoc1, hec1, hcc1]
  · rw [hoc2, hec2, hcc2]

/-- C10 amended witness: well-formed settings with `anthropic` embeddings
fall back to `ollama` with the requested model. -/
theorem configure_fallback_witness :
    (wSettingsAnth.chat_provider.getD ("ollama") ∈ PROVIDERS) ∧
    (wSettingsAnth.embedding_provider.getD ("ollama") ∈ PROVIDERS) ∧
    ((capabilitiesOf (wSettingsAnth.embedding_provider.getD ("ollama"))).supports_embeddings
      = false) ∧
    (Registry.configure_from_settings wEnv initRegistry wSettingsAnth).2 = .ok () ∧
    (Registry.configure_from_settings wEnv initRegistry wSettingsAnth).1.embedding_provider_name
      = "ollama" ∧
    (Registry.configure_from_settings wEnv initRegistry wSettingsAnth).1.embedding_model
      = wSettingsAnth.embedding_model :=
  ⟨by decide, by decide, by decide,
   (configure_fallback wEnv initRegistry wSettingsAnth (by decide)
      (by intro pk hp he; simp [wSettingsAnth] at hp) (by decide) (by decide)).1,
   (configure_fallback wEnv initRegistry wSettingsAnth (by decide)
      (by intro pk hp he; simp [wSettingsAnth] at hp) (by decide) (by decide)).2.1,
   (configure_fallback wEnv initRegistry wSettingsAnth (by decide)
      (by intro pk hp he; simp [wSettingsAnth] at hp) (by decide) (by decide)).2.2.1⟩

end OBookLLM
